import Mathlib

/-!
Shallow embedding of the taxfix data pipeline (fetch → validate → anonymize →
persist → report) and proofs of its specified properties.

The embedding translates the Python sources:
  * `src/fetch_data.py`    — record/response validation and batch orchestration,
  * `src/data_anonymization.py` — age bracketing, email-domain extraction,
    person anonymization,
  * `src/database.py`      — the persisted `AnonymizedPerson` row shape,
  * `src/generate_report.py` — the report queries, as pure functions over the
    list of stored rows.

Machine-level conventions: Python integers are unbounded, so `Nat`/`Int` are
used directly; Python functions that can raise are embedded as `Option`/`Except`;
JSON values are an inductive type and Python dicts are association lists with
first-match lookup (JSON object keys are unique, so this is faithful).
-/

/-- JSON-like values as delivered by the Faker API. JSON numbers are kept as
exact decimals `mantissa * 10 ^ exponent`; no code path in the repository ever
does arithmetic on a JSON number, it only stores them. -/
inductive JsonVal where
  | null
  | boolv (b : Bool)
  | numv (mantissa : Int) (exponent : Int)
  | strv (s : String)
  | arr (xs : List JsonVal)
  | obj (fields : List (String × JsonVal))

/-- A raw JSON object body: a Python `dict[str, Any]` as an association list. -/
abbrev RawRecord := List (String × JsonVal)

/-- Python `d[k]` / `d.get(k)` on a dict: the value stored under `k`, if any. -/
def lookupKey : RawRecord → String → Option JsonVal
  | [], _ => none
  | (k, v) :: rest, key => if k = key then some v else lookupKey rest key

/-- The keys of a raw record. -/
def keysOf (r : RawRecord) : List String := r.map Prod.fst

/-- Membership test of a string in a list of strings, as a boolean. -/
def containsStr (l : List String) (k : String) : Bool := l.any (fun x => x = k)

/-- Success condition of calling a dataclass constructor as `Cls(**d)`: every
declared field must be a key of `d` (otherwise `TypeError`: missing required
argument) and every key of `d` must be a declared field (otherwise `TypeError`:
unexpected keyword argument). -/
def exactKeys (r : RawRecord) (names : List String) : Bool :=
  names.all (fun n => containsStr (keysOf r) n) &&
    (keysOf r).all (fun k => containsStr names k)

/-- The value stored under a key that is known to be present (used only under
`exactKeys`, where the default is never taken). -/
def getField (r : RawRecord) (k : String) : JsonVal :=
  (lookupKey r k).getD JsonVal.null

/-- The `Address` dataclass of `fetch_data.py`. Python dataclasses perform no
runtime type checking, so every field holds the raw JSON value it was given;
the type annotations (`id: int`, `latitude: float`, ...) are not enforced. -/
structure Address where
  id : JsonVal
  street : JsonVal
  streetName : JsonVal
  buildingNumber : JsonVal
  city : JsonVal
  zipcode : JsonVal
  country : JsonVal
  country_code : JsonVal
  latitude : JsonVal
  longitude : JsonVal

/-- The `Person` dataclass of `fetch_data.py`; same convention as `Address`. -/
structure Person where
  id : JsonVal
  firstname : JsonVal
  lastname : JsonVal
  email : JsonVal
  phone : JsonVal
  birthday : JsonVal
  gender : JsonVal
  address : Address
  website : JsonVal
  image : JsonVal

/-- The declared fields of the `Address` dataclass. -/
def addressFields : List String :=
  ["id", "street", "streetName", "buildingNumber", "city", "zipcode",
   "country", "country_code", "latitude", "longitude"]

/-- The declared fields of the `Person` dataclass. -/
def personFields : List String :=
  ["id", "firstname", "lastname", "email", "phone", "birthday", "gender",
   "address", "website", "image"]

/-- `Address(**data["address"])`: succeeds iff the argument is a mapping whose
keys are exactly the dataclass fields; the field values themselves are not
checked. A non-mapping argument raises `TypeError` (caught by the caller). -/
def mkAddress : JsonVal → Option Address
  | JsonVal.obj fields =>
      if exactKeys fields addressFields then
        some { id := getField fields "id",
               street := getField fields "street",
               streetName := getField fields "streetName",
               buildingNumber := getField fields "buildingNumber",
               city := getField fields "city",
               zipcode := getField fields "zipcode",
               country := getField fields "country",
               country_code := getField fields "country_code",
               latitude := getField fields "latitude",
               longitude := getField fields "longitude" }
      else none
  | _ => none

/-- `Person(**{**data, "address": address})`: the keyword set is the keys of
`data` together with `"address"` (whose value is replaced by the constructed
`Address`); construction succeeds iff that set is exactly the `Person` fields. -/
def mkPerson (data : RawRecord) (addr : Address) : Option Person :=
  let mergedKeys := "address" :: keysOf data
  if personFields.all (fun n => containsStr mergedKeys n) &&
       mergedKeys.all (fun k => containsStr personFields k) then
    some { id := getField data "id",
           firstname := getField data "firstname",
           lastname := getField data "lastname",
           email := getField data "email",
           phone := getField data "phone",
           birthday := getField data "birthday",
           gender := getField data "gender",
           address := addr,
           website := getField data "website",
           image := getField data "image" }
  else none

/-- Leap-year rule of the proleptic Gregorian calendar used by `datetime`. -/
def isLeapYear (y : Nat) : Bool := y % 4 == 0 && (y % 100 != 0 || y % 400 == 0)

/-- Number of days of month `m` in year `y`, as checked by the `datetime`
constructor. -/
def daysInMonth (y m : Nat) : Nat :=
  if m = 2 then (if isLeapYear y then 29 else 28)
  else if m = 4 ∨ m = 6 ∨ m = 9 ∨ m = 11 then 30
  else 31

/-- A calendar date, the result of a successful `strptime(s, "%Y-%m-%d")`. -/
structure Date where
  year : Nat
  month : Nat
  day : Nat

/-- Numeric value of a decimal digit character. -/
def digitVal (c : Char) : Nat := c.toNat - 48

/-- The `%m` directive of `strptime`: the regex `1[0-2]|0[1-9]|[1-9]`, i.e. a
one- or two-digit month in `1..12`, with the alternatives tried in that order.
Returns the month and the unconsumed characters. -/
def parseMonth : List Char → Option (Nat × List Char)
  | '1' :: c :: rest =>
      if '0' ≤ c ∧ c ≤ '2' then some (10 + digitVal c, rest)
      else some (1, c :: rest)
  | '0' :: c :: rest =>
      if '1' ≤ c ∧ c ≤ '9' then some (digitVal c, rest) else none
  | c :: rest =>
      if '1' ≤ c ∧ c ≤ '9' then some (digitVal c, rest) else none
  | [] => none

/-- The `%d` directive of `strptime`: the regex `3[01]|[12]\d|0[1-9]|[1-9]`,
i.e. a one- or two-digit day in `1..31`, alternatives tried in that order. -/
def parseDay : List Char → Option (Nat × List Char)
  | '3' :: c :: rest =>
      if c = '0' ∨ c = '1' then some (30 + digitVal c, rest)
      else some (3, c :: rest)
  | '1' :: c :: rest =>
      if c.isDigit then some (10 + digitVal c, rest) else some (1, c :: rest)
  | '2' :: c :: rest =>
      if c.isDigit then some (20 + digitVal c, rest) else some (2, c :: rest)
  | '0' :: c :: rest =>
      if '1' ≤ c ∧ c ≤ '9' then some (digitVal c, rest) else none
  | c :: rest =>
      if '1' ≤ c ∧ c ≤ '9' then some (digitVal c, rest) else none
  | [] => none

/-- `datetime.strptime(s, "%Y-%m-%d")`: `%Y` is exactly four digits, the two
literal dashes must match, `%m`/`%d` are as above, the match must consume the
whole string, and the resulting date must be a valid calendar date with
`year ≥ 1` (`datetime.MINYEAR`); otherwise `ValueError` (here: `none`). -/
def parseYMD (s : String) : Option Date :=
  match s.toList with
  | y1 :: y2 :: y3 :: y4 :: '-' :: rest =>
      if y1.isDigit ∧ y2.isDigit ∧ y3.isDigit ∧ y4.isDigit then
        let y := digitVal y1 * 1000 + digitVal y2 * 100 + digitVal y3 * 10 +
          digitVal y4
        match parseMonth rest with
        | some (m, '-' :: rest2) =>
            match parseDay rest2 with
            | some (d, []) =>
                if 1 ≤ y ∧ d ≤ daysInMonth y m then some ⟨y, m, d⟩ else none
            | _ => none
        | _ => none
      else none
  | _ => none

/-- `_validate_person` of `fetch_data.py`. In source order: `data["birthday"]`
(`KeyError` if absent, `TypeError` if `data` is not a dict), `strptime` on it
(`TypeError` if not a string, `ValueError` if it does not parse),
`Address(**data["address"])`, then `Person(**{**data, "address": address})`.
Every one of those exceptions is caught and turned into `None`. -/
def _validate_person (data : JsonVal) : Option Person :=
  match data with
  | JsonVal.obj r =>
      match lookupKey r "birthday" with
      | some (JsonVal.strv bs) =>
          match parseYMD bs with
          | some _ =>
              match lookupKey r "address" with
              | some aj =>
                  match mkAddress aj with
                  | some addr => mkPerson r addr
                  | none => none
              | none => none
          | none => none
      | some _ => none
      | none => none
  | _ => none

/-- `validate_response` of `fetch_data.py`: an envelope whose `status` is not
the string `"OK"` yields `[]`; a `data` field that is present but not a list
yields `[]` (an absent `data` defaults to the empty list); otherwise each
element of `data` is run through `_validate_person` and the accepted ones are
kept in order. -/
def validate_response (response_data : RawRecord) : List Person :=
  match lookupKey response_data "status" with
  | some (JsonVal.strv "OK") =>
      match (lookupKey response_data "data").getD (JsonVal.arr []) with
      | JsonVal.arr xs => xs.filterMap _validate_person
      | _ => []
  | _ => []

/-- `MAX_API_QUANTITY` of `fetch_data.py`: the Faker API batch-size ceiling. -/
def MAX_API_QUANTITY : Nat := 1000

/-- `num_batches = (quantity + MAX_API_QUANTITY - 1) // MAX_API_QUANTITY`. -/
def num_batches (quantity : Nat) : Nat :=
  (quantity + MAX_API_QUANTITY - 1) / MAX_API_QUANTITY

/-- The sizes submitted to the worker pool, in batch order:
`min(MAX_API_QUANTITY, quantity - i * MAX_API_QUANTITY)` for
`i in range(num_batches)`. For every such `i` we have
`i * MAX_API_QUANTITY < quantity` when `quantity ≥ 1`, so the truncated `Nat`
subtraction agrees with Python's integer subtraction on every index used. -/
def batchSizes (quantity : Nat) : List Nat :=
  (List.range (num_batches quantity)).map
    (fun i => min MAX_API_QUANTITY (quantity - i * MAX_API_QUANTITY))

/-- The outcome of one `_fetch_batch` future: either the batch's validated
persons, or the exception it raised after its session-level retries were
exhausted. -/
abbrev BatchResult := Except String (List Person)

/-- The `as_completed` collection loop of `fetch_persons`: each resolved future
either extends the accumulator with its records, or (if `future.result()`
re-raises the batch's exception) is logged and skipped with `continue`. -/
def collectResults (outcomes : List BatchResult) : List Person :=
  outcomes.foldl
    (fun all r => match r with
      | Except.ok ps => all ++ ps
      | Except.error _ => all)
    []

/-- `fetch_persons`, with the network and the thread scheduler abstracted:
`outcome i` is what batch `i`'s future returns (success or raised error), and
`order` is the order in which the futures complete — any permutation of
`range (num_batches quantity)`. -/
def fetch_persons (quantity : Nat) (outcome : Nat → BatchResult)
    (order : List Nat) : List Person :=
  collectResults (order.map outcome)

/-- A point in time as used by `datetime.now()`: a calendar date plus the time
elapsed since that day's midnight (in any fixed subdivision of the day). A
date parsed by `strptime` carries time-of-day `0` (midnight). -/
structure DateTime where
  date : Date
  timeOfDay : Nat

/-- Python's lexicographic comparison of `datetime` objects. -/
def dtBefore (a b : DateTime) : Bool :=
  a.date.year < b.date.year ||
    (a.date.year == b.date.year && (a.date.month < b.date.month ||
      (a.date.month == b.date.month && (a.date.day < b.date.day ||
        (a.date.day == b.date.day && a.timeOfDay < b.timeOfDay)))))

/-- Python's lexicographic comparison of the tuples
`(today.month, today.day) < (birth.month, birth.day)`. -/
def pairBefore (a b : Nat × Nat) : Bool :=
  a.1 < b.1 || (a.1 == b.1 && a.2 < b.2)

/-- The whole-years age on date `t` of a person born on date `b`, exactly as
computed in `calculate_age_group`: year difference, minus one if the birthday
has not yet occurred in year `t.year`. -/
def ageInYears (t b : Date) : Int :=
  (t.year : Int) - (b.year : Int) -
    (if pairBefore (t.month, t.day) (b.month, b.day) then 1 else 0)

/-- `calculate_age_group` of `data_anonymization.py`, with `datetime.now()`
passed explicitly as `now`. A birthday that `strptime` rejects is logged and
answered with `None`; a parsed birthday strictly after `now` raises
`ValueError` (the `Except.error` case); otherwise the age is bracketed into
`[lower-upper]` with `lower = (age // 10) * 10` (Python floor division) and
`upper = lower + 10`. -/
def calculate_age_group (now : DateTime) (birthday : String) :
    Except String (Option String) :=
  match parseYMD birthday with
  | none => Except.ok none
  | some bd =>
      if dtBefore now ⟨bd, 0⟩ then
        Except.error ("Birthday " ++ birthday ++ " is in the future")
      else
        let age := ageInYears now.date bd
        let lower := (Int.fdiv age 10) * 10
        let upper := lower + 10
        Except.ok (some ("[" ++ toString lower ++ "-" ++ toString upper ++ "]"))

/-- Splitting a character list at every occurrence of `c`, like Python's
`str.split(c)`: `"a@@b" → ["a", "", "b"]`. -/
def splitOnChar (c : Char) : List Char → List (List Char)
  | [] => [[]]
  | x :: xs =>
      match splitOnChar c xs with
      | [] => [[x]]
      | r :: rs => if x = c then [] :: r :: rs else (x :: r) :: rs

/-- Modelled from the spec: the repository delegates strict email validation to
the external `email_validator` package (`validate_email` with
`check_deliverability=False`), whose code is not part of `src/`. The spec
describes the result as "the validated domain portion of the email, absent if
the email fails strict validation", with the examples
`"user+x@sub.gmail.com" → "sub.gmail.com"` and `"user@"`, `"a@@b.com"`,
`"x@domain."`, `None` → absent. Modelled as: the address must contain exactly
one `@`, a nonempty local part, and a domain made of two or more nonempty
dot-separated labels; the domain is returned. -/
def validEmailDomain (e : String) : Option String :=
  match splitOnChar '@' e.toList with
  | [localPart, domain] =>
      if localPart = [] then none
      else
        let labels := splitOnChar '.' domain
        if 2 ≤ labels.length ∧ labels.all (fun l => l ≠ []) then
          some (String.mk domain)
        else none
  | _ => none

/-- `extract_email_domain` of `data_anonymization.py`, on its annotated domain
`str | None`: `None` maps to `None`; otherwise `validate_email` either returns
the domain or raises `EmailNotValidError`, which is caught and becomes `None`. -/
def extract_email_domain : Option String → Option String
  | none => none
  | some e => validEmailDomain e

/-- The `AnonymizedPerson` row of `database.py`, as built by
`anonymize_person`: only the age bracket, the email domain, the country and
the city. The table's autoincrement `id` primary key is assigned by the
database and carries no person data, so it is not part of the projection. -/
structure AnonymizedPerson where
  age_group : Option String
  email_domain : Option String
  country : JsonVal
  city : JsonVal

/-- Argument passing of `calculate_age_group(person.birthday)`: the dataclass
field holds a raw JSON value; `strptime` raises an uncaught `TypeError` if it
is not a string. -/
def ageGroupOfJson (now : DateTime) : JsonVal → Except String (Option String)
  | JsonVal.strv s => calculate_age_group now s
  | _ => Except.error "TypeError: strptime() argument 1 must be str"

/-- Argument passing of `extract_email_domain(person.email)`: `None` and
strings follow the function's contract; the external validator raises an
uncaught error for any other value. -/
def emailDomainOfJson : JsonVal → Except String (Option String)
  | JsonVal.null => Except.ok (extract_email_domain none)
  | JsonVal.strv s => Except.ok (extract_email_domain (some s))
  | _ => Except.error "TypeError: email must be a string"

/-- `anonymize_person` of `data_anonymization.py`: the projection of a fetched
`Person` to the four retained attributes. The `Except` propagates the
`ValueError` that `calculate_age_group` raises on a future birthday. -/
def anonymize_person (now : DateTime) (p : Person) :
    Except String AnonymizedPerson := do
  let ag ← ageGroupOfJson now p.birthday
  let ed ← emailDomainOfJson p.email
  pure { age_group := ag, email_domain := ed,
         country := p.address.country, city := p.address.city }

/-- `count_gmail_users_over_60` of `generate_report.py`, as a pure function of
the stored rows: the query counts rows with `email_domain = "gmail.com"` and
`age_group IN ("[60-70]", "[70-80]", "[80-90]", "[90-100]")` (SQL `IN` is
false on a NULL `age_group`). -/
def count_gmail_users_over_60 (rows : List AnonymizedPerson) : Nat :=
  (rows.filter (fun r =>
    r.email_domain == some "gmail.com" &&
      (match r.age_group with
       | some g => ["[60-70]", "[70-80]", "[80-90]", "[90-100]"].contains g
       | none => false))).length

/-- The nested address mapping of the test suite's "valid_single_person". -/
def sampleAddressJson : RawRecord :=
  [("id", JsonVal.numv 1 0),
   ("street", JsonVal.strv "123 Main St"),
   ("streetName", JsonVal.strv "Main St"),
   ("buildingNumber", JsonVal.strv "123"),
   ("city", JsonVal.strv "Anytown"),
   ("zipcode", JsonVal.strv "12345"),
   ("country", JsonVal.strv "USA"),
   ("country_code", JsonVal.strv "US"),
   ("latitude", JsonVal.numv 42123 (-3)),
   ("longitude", JsonVal.numv (-71123) (-3))]

/-- The raw record of the test suite's "valid_single_person" case: all ten
required `Person` fields and nothing else. -/
def sampleRecord : RawRecord :=
  [("id", JsonVal.numv 1 0),
   ("firstname", JsonVal.strv "John"),
   ("lastname", JsonVal.strv "Doe"),
   ("email", JsonVal.strv "john@example.com"),
   ("phone", JsonVal.strv "+1234567890"),
   ("birthday", JsonVal.strv "1990-01-01"),
   ("gender", JsonVal.strv "male"),
   ("website", JsonVal.strv "http://example.com"),
   ("image", JsonVal.strv "http://example.com/image.jpg"),
   ("address", JsonVal.obj sampleAddressJson)]

/-- `sampleRecord` with one extra, unknown top-level field added. -/
def sampleRecordExtra : RawRecord :=
  ("nickname", JsonVal.strv "Johnny") :: sampleRecord

example : (_validate_person (JsonVal.obj sampleRecord)).isSome = true := rfl
example : _validate_person (JsonVal.obj sampleRecordExtra) = none := rfl
example : (validate_response
  [("status", JsonVal.strv "OK"), ("code", JsonVal.numv 200 0),
   ("total", JsonVal.numv 1 0),
   ("data", JsonVal.arr [JsonVal.obj sampleRecord])]).length = 1 := rfl
example : validate_response
  [("status", JsonVal.strv "ERROR"), ("code", JsonVal.numv 500 0),
   ("total", JsonVal.numv 0 0), ("data", JsonVal.arr [])] = [] := rfl
example : validate_response
  [("status", JsonVal.strv "OK"), ("code", JsonVal.numv 200 0),
   ("total", JsonVal.numv 1 0), ("data", JsonVal.strv "not a list")] = [] := rfl

theorem containsStr_iff (l : List String) (k : String) :
    containsStr l k = true ↔ k ∈ l := by
  simp [containsStr, List.any_eq_true]

theorem lookupKey_mem {r : RawRecord} {k : String} {v : JsonVal}
    (h : lookupKey r k = some v) : k ∈ keysOf r := by
  induction r with
  | nil => simp [lookupKey] at h
  | cons hd tl ih =>
      rw [lookupKey] at h
      by_cases hk : hd.1 = k
      · simp [keysOf, hk]
      · simp only [hk, if_false] at h
        simp [keysOf] at ih ⊢
        exact Or.inr (ih h)

theorem collectResults_eq (outcomes : List BatchResult) :
    collectResults outcomes
      = (outcomes.filterMap Except.toOption).flatten := by
  suffices h : ∀ (os : List BatchResult) (acc : List Person),
      os.foldl (fun all r => match r with
        | Except.ok ps => all ++ ps
        | Except.error _ => all) acc
        = acc ++ (os.filterMap Except.toOption).flatten by
    simpa [collectResults] using h outcomes []
  intro os
  induction os with
  | nil => intro acc; simp
  | cons o rest ih =>
      intro acc
      cases o with
      | ok ps => simp [Except.toOption, ih]
      | error e => simp [Except.toOption, ih]

/-- C4: for every `quantity ≥ 1`, `fetch_persons` partitions the request into
batches whose number `n` is `⌈quantity / 1000⌉` (characterised by
`(n - 1) * 1000 < quantity ≤ n * 1000`), whose sizes are all `1000` except the
last, which takes the remainder, and whose sizes sum to `quantity`. -/
theorem fetch_persons_batching (q : Nat) (hq : 1 ≤ q) :
    q ≤ (batchSizes q).length * 1000 ∧
    ((batchSizes q).length - 1) * 1000 < q ∧
    (∀ s ∈ (batchSizes q).dropLast, s = 1000) ∧
    (batchSizes q).getLast? = some (q - ((batchSizes q).length - 1) * 1000) ∧
    (batchSizes q).sum = q := by
  have hlen : (batchSizes q).length = num_batches q := by
    simp [batchSizes]
  have hn1 : 1 ≤ num_batches q := by
    simp only [num_batches, MAX_API_QUANTITY]
    omega
  obtain ⟨m, hm⟩ : ∃ m, num_batches q = m + 1 :=
    ⟨num_batches q - 1, by omega⟩
  have hub : q ≤ (m + 1) * 1000 := by
    simp only [num_batches, MAX_API_QUANTITY] at hm
    omega
  have hlb : m * 1000 < q := by
    simp only [num_batches, MAX_API_QUANTITY] at hm
    omega
  have hdecomp : batchSizes q
      = (List.range m).map (fun i => min 1000 (q - i * 1000)) ++
        [min 1000 (q - m * 1000)] := by
    rw [batchSizes, hm, List.range_succ, List.map_append, MAX_API_QUANTITY]
    simp
  have hconst : ∀ i < m, min 1000 (q - i * 1000) = 1000 := by
    intro i hi
    have : (i + 1) * 1000 ≤ m * 1000 := by
      exact Nat.mul_le_mul_right 1000 hi
    omega
  refine ⟨?_, ?_, ?_, ?_, ?_⟩
  · rw [hlen, hm]; omega
  · rw [hlen, hm]; omega
  · intro s hs
    rw [hdecomp, List.dropLast_concat] at hs
    obtain ⟨i, hi, rfl⟩ := List.mem_map.1 hs
    exact hconst i (List.mem_range.1 hi)
  · have h3 : (batchSizes q).getLast? = some (min 1000 (q - m * 1000)) := by
      rw [hdecomp]
      exact List.getLast?_concat _
    rw [h3, hlen, hm]
    congr 1
    omega
  · rw [hdecomp, List.sum_append]
    have h1 : (List.range m).map (fun i => min 1000 (q - i * 1000))
        = List.replicate m 1000 := by
      rw [List.map_congr_left (g := fun _ => 1000)
        (fun i hi => hconst i (List.mem_range.1 hi))]
      exact List.map_const (List.range m) 1000 ▸ by
        simp [List.map_const, Function.const]
    rw [h1, List.sum_replicate, smul_eq_mul]
    simp only [List.sum_cons, List.sum_nil]
    omega

theorem fetch_persons_batching_witness :
    batchSizes 2500 = [1000, 1000, 500] ∧ (batchSizes 2500).sum = 2500 :=
  ⟨rfl, (fetch_persons_batching 2500 (by norm_num)).2.2.2.2⟩

/-- C3: with the futures' outcomes and completion order abstracted, the result
of `fetch_persons` is exactly the concatenation, in completion order, of the
records of the batches that succeeded — every failing batch is skipped without
aborting the others — and if every batch fails the result is the empty list
(no exception escapes the collection loop). -/
theorem fetch_persons_partial_failures (q : Nat) (outcome : Nat → BatchResult)
    (order : List Nat) (hperm : order.Perm (List.range (num_batches q))) :
    fetch_persons q outcome order
        = ((order.map outcome).filterMap Except.toOption).flatten ∧
      ((∀ i ∈ order, ∃ e, outcome i = Except.error e) →
        fetch_persons q outcome order = []) := by
  constructor
  · exact collectResults_eq (order.map outcome)
  · intro hall
    rw [fetch_persons, collectResults_eq]
    have : (order.map outcome).filterMap Except.toOption = [] := by
      rw [List.filterMap_eq_nil_iff]
      intro a ha
      obtain ⟨i, hi, rfl⟩ := List.mem_map.1 ha
      obtain ⟨e, he⟩ := hall i hi
      rw [he]
      rfl
    rw [this]
    rfl

/-- A concrete validated address, for instantiating the theorems. -/
def sampleAddress : Address :=
  { id := JsonVal.numv 1 0,
    street := JsonVal.strv "123 Main St",
    streetName := JsonVal.strv "Main St",
    buildingNumber := JsonVal.strv "123",
    city := JsonVal.strv "Anytown",
    zipcode := JsonVal.strv "12345",
    country := JsonVal.strv "USA",
    country_code := JsonVal.strv "US",
    latitude := JsonVal.numv 42123 (-3),
    longitude := JsonVal.numv (-71123) (-3) }

/-- A concrete validated person, for instantiating the theorems. -/
def samplePerson : Person :=
  { id := JsonVal.numv 1 0,
    firstname := JsonVal.strv "John",
    lastname := JsonVal.strv "Doe",
    email := JsonVal.strv "john@example.com",
    phone := JsonVal.strv "+1234567890",
    birthday := JsonVal.strv "1990-01-01",
    gender := JsonVal.strv "male",
    address := sampleAddress,
    website := JsonVal.strv "http://example.com",
    image := JsonVal.strv "http://example.com/image.jpg" }

/-- A batch-outcome assignment where batch 1 fails after its retries and
batches 0 and 2 succeed. -/
def mixedOutcome : Nat → BatchResult := fun i =>
  if i = 1 then Except.error "connection error" else Except.ok [samplePerson]

theorem fetch_persons_partial_failures_witness :
    [2, 0, 1].Perm (List.range (num_batches 2500)) ∧
    fetch_persons 2500 mixedOutcome [2, 0, 1] = [samplePerson, samplePerson] :=
  ⟨by decide,
   ((fetch_persons_partial_failures 2500 mixedOutcome [2, 0, 1]
      (by decide)).1).trans rfl⟩

/-- C7: `validate_response` returns the empty list — raising nothing — for
every envelope whose `status` differs from the string `"OK"` (whatever `data`
holds) and for every envelope whose `data` field is present but not a list;
only when `status` is `"OK"` and `data` is a list does it run the elements
through the per-record validator, keeping the accepted ones. -/
theorem validate_response_envelope (env : RawRecord) :
    (lookupKey env "status" ≠ some (JsonVal.strv "OK") →
      validate_response env = []) ∧
    (∀ j, lookupKey env "data" = some j → (∀ xs, j ≠ JsonVal.arr xs) →
      validate_response env = []) ∧
    (∀ xs, lookupKey env "status" = some (JsonVal.strv "OK") →
      lookupKey env "data" = some (JsonVal.arr xs) →
      validate_response env = xs.filterMap _validate_person) := by
  refine ⟨?_, ?_, ?_⟩
  · intro hne
    rw [validate_response]
    split
    · rename_i heq
      exact absurd heq hne
    · rfl
  · intro j hj hnotarr
    rw [validate_response]
    split
    · rw [hj, Option.getD_some]
      cases j with
      | arr xs => exact absurd rfl (hnotarr xs)
      | null => rfl
      | boolv b => rfl
      | numv m e => rfl
      | strv s => rfl
      | obj fields => rfl
    · rfl
  · intro xs hs hd
    rw [validate_response]
    split
    · rw [hd, Option.getD_some]
    · rename_i hne
      exact absurd hs hne

theorem validate_response_envelope_witness :
    validate_response
        [("status", JsonVal.strv "ERROR"), ("code", JsonVal.numv 500 0),
         ("data", JsonVal.arr [JsonVal.obj sampleRecord])] = [] ∧
    validate_response
        [("status", JsonVal.strv "OK"), ("code", JsonVal.numv 200 0),
         ("data", JsonVal.strv "not a list")] = [] ∧
    validate_response
        [("status", JsonVal.strv "OK"), ("code", JsonVal.numv 200 0),
         ("data", JsonVal.arr [JsonVal.obj sampleRecord])]
      = [JsonVal.obj sampleRecord].filterMap _validate_person :=
  ⟨(validate_response_envelope _).1 (by simp [lookupKey]),
   (validate_response_envelope _).2.1 (JsonVal.strv "not a list") rfl
     (fun xs h => by simp at h),
   (validate_response_envelope _).2.2 [JsonVal.obj sampleRecord] rfl rfl⟩

/-- C10: `validate_response` inspects only the `status` and `data` fields of
the envelope: two envelopes that agree on those two fields produce the same
result, no matter how their `code`, `total` or any other field differ — in
particular `code` and `total` are never cross-checked against `data`. -/
theorem validate_response_ignores_other_fields (e1 e2 : RawRecord)
    (hs : lookupKey e1 "status" = lookupKey e2 "status")
    (hd : lookupKey e1 "data" = lookupKey e2 "data") :
    validate_response e1 = validate_response e2 := by
  rw [validate_response, validate_response, hs, hd]

theorem validate_response_ignores_other_fields_witness :
    validate_response
        [("status", JsonVal.strv "OK"), ("code", JsonVal.numv 200 0),
         ("total", JsonVal.numv 1 0),
         ("data", JsonVal.arr [JsonVal.obj sampleRecord])]
      = validate_response
        [("status", JsonVal.strv "OK"), ("code", JsonVal.numv 500 0),
         ("total", JsonVal.numv 99 0), ("extra", JsonVal.boolv true),
         ("data", JsonVal.arr [JsonVal.obj sampleRecord])] :=
  validate_response_ignores_other_fields _ _ rfl rfl

theorem dtBefore_irrefl (a : DateTime) : dtBefore a a = false := by
  simp [dtBefore]

/-- C5: `calculate_age_group` answers `None` — raising nothing — for every
birthday string that `strptime("%Y-%m-%d")` rejects; raises the future-date
`ValueError` for every birthday parsing to a date strictly after `now`; and
does not fail for a birthday equal to `now`. -/
theorem calculate_age_group_error_handling (now : DateTime) (s : String) :
    (parseYMD s = none → calculate_age_group now s = Except.ok none) ∧
    (∀ d, parseYMD s = some d → dtBefore now ⟨d, 0⟩ = true →
      calculate_age_group now s
        = Except.error ("Birthday " ++ s ++ " is in the future")) ∧
    (∀ d, parseYMD s = some d → (⟨d, 0⟩ : DateTime) = now →
      (calculate_age_group now s).isOk = true) := by
  refine ⟨?_, ?_, ?_⟩
  · intro hp
    rw [calculate_age_group, hp]
  · intro d hp hfut
    rw [calculate_age_group, hp]
    simp [hfut]
  · intro d hp heq
    rw [calculate_age_group, hp, ← heq]
    simp [dtBefore_irrefl, Except.isOk, Except.toBool]

theorem calculate_age_group_error_handling_witness :
    calculate_age_group ⟨⟨2025, 1, 1⟩, 0⟩ "not-a-date" = Except.ok none ∧
    calculate_age_group ⟨⟨2025, 1, 1⟩, 0⟩ "2026-01-01"
      = Except.error "Birthday 2026-01-01 is in the future" ∧
    (calculate_age_group ⟨⟨2025, 1, 1⟩, 0⟩ "2025-01-01").isOk = true :=
  ⟨(calculate_age_group_error_handling ⟨⟨2025, 1, 1⟩, 0⟩ "not-a-date").1 rfl,
   (calculate_age_group_error_handling ⟨⟨2025, 1, 1⟩, 0⟩ "2026-01-01").2.1
     ⟨2026, 1, 1⟩ rfl rfl,
   (calculate_age_group_error_handling ⟨⟨2025, 1, 1⟩, 0⟩ "2025-01-01").2.2
     ⟨2025, 1, 1⟩ rfl rfl⟩

/-- C6: for every birthday that parses and is not in the future, with
`a = ageInYears now.date birthdate ≥ 0` the person's whole-years age,
`calculate_age_group` returns exactly the bracket string `"[L-U]"` with
`L = 10 * ⌊a / 10⌋` and `U = L + 10`. -/
theorem calculate_age_group_bracket (now : DateTime) (s : String) (bd : Date)
    (hp : parseYMD s = some bd) (hf : dtBefore now ⟨bd, 0⟩ = false)
    (ha : 0 ≤ ageInYears now.date bd) :
    calculate_age_group now s
      = Except.ok (some ("[" ++ toString (10 * (ageInYears now.date bd / 10))
          ++ "-" ++ toString (10 * (ageInYears now.date bd / 10) + 10) ++ "]")) := by
  rw [calculate_age_group, hp]
  simp only [hf, Bool.false_eq_true, if_false]
  rw [Int.fdiv_eq_ediv _ (by norm_num), Int.mul_comm]

theorem calculate_age_group_bracket_witness :
    0 ≤ ageInYears ⟨2025, 1, 1⟩ ⟨1990, 6, 15⟩ ∧
    calculate_age_group ⟨⟨2025, 1, 1⟩, 0⟩ "1990-06-15"
      = Except.ok (some "[30-40]") :=
  ⟨by decide,
   (calculate_age_group_bracket ⟨⟨2025, 1, 1⟩, 0⟩ "1990-06-15" ⟨1990, 6, 15⟩
      rfl rfl (by decide)).trans rfl⟩

/-- C8: `extract_email_domain` maps `"user+x@sub.gmail.com"` to
`"sub.gmail.com"`, and each of the malformed inputs `"user@"`, `"a@@b.com"`,
`"x@domain."` and `None` to `None`. -/
theorem extract_email_domain_examples :
    extract_email_domain (some "user+x@sub.gmail.com") = some "sub.gmail.com" ∧
    extract_email_domain (some "user@") = none ∧
    extract_email_domain (some "a@@b.com") = none ∧
    extract_email_domain (some "x@domain.") = none ∧
    extract_email_domain none = none :=
  ⟨rfl, rfl, rfl, rfl, rfl⟩

/-- C9: `anonymize_person` reads nothing of a validated `Person` but its
birthday, its email, and its address's country and city: two persons agreeing
on those four values — however much they differ in id, firstname, lastname,
phone, gender, website, image or any other address field — yield identical
`AnonymizedPerson` projections, and the projection type itself carries only
`age_group`, `email_domain`, `country` and `city`. -/
theorem anonymize_person_noninterference (now : DateTime) (p1 p2 : Person)
    (hb : p1.birthday = p2.birthday) (he : p1.email = p2.email)
    (hc : p1.address.country = p2.address.country)
    (hy : p1.address.city = p2.address.city) :
    anonymize_person now p1 = anonymize_person now p2 := by
  rw [anonymize_person, anonymize_person, hb, he, hc, hy]

/-- A person sharing only birthday, email, country and city with
`samplePerson`; every other field, including the street-level address, differs. -/
def otherPerson : Person :=
  { id := JsonVal.numv 999 0,
    firstname := JsonVal.strv "Jane",
    lastname := JsonVal.strv "Roe",
    email := JsonVal.strv "john@example.com",
    phone := JsonVal.strv "+9876543210",
    birthday := JsonVal.strv "1990-01-01",
    gender := JsonVal.strv "female",
    address :=
      { id := JsonVal.numv 77 0,
        street := JsonVal.strv "456 Oak St",
        streetName := JsonVal.strv "Oak St",
        buildingNumber := JsonVal.strv "456",
        city := JsonVal.strv "Anytown",
        zipcode := JsonVal.strv "67890",
        country := JsonVal.strv "USA",
        country_code := JsonVal.strv "XX",
        latitude := JsonVal.numv 45123 (-3),
        longitude := JsonVal.numv (-75123) (-3) },
    website := JsonVal.strv "http://other.example",
    image := JsonVal.strv "http://other.example/jane.jpg" }

theorem anonymize_person_noninterference_witness :
    anonymize_person ⟨⟨2025, 1, 1⟩, 0⟩ samplePerson
      = anonymize_person ⟨⟨2025, 1, 1⟩, 0⟩ otherPerson :=
  anonymize_person_noninterference ⟨⟨2025, 1, 1⟩, 0⟩ samplePerson otherPerson
    rfl rfl rfl rfl

/-- C2: contrary to the claim, `count_gmail_users_over_60` counts only the four
hard-coded brackets `[60-70]`, `[70-80]`, `[80-90]`, `[90-100]`: a stored Gmail
row in bracket `[100-110]` — a person over 60 — is not counted, while a
`[60-70]` row is. With `_birthday_start=1900-01-01` such ages do occur. -/
theorem count_over_60_misses_high_brackets :
    count_gmail_users_over_60
        [{ age_group := some "[100-110]", email_domain := some "gmail.com",
           country := JsonVal.strv "Germany", city := JsonVal.strv "Berlin" }]
      = 0 ∧
    count_gmail_users_over_60
        [{ age_group := some "[60-70]", email_domain := some "gmail.com",
           country := JsonVal.strv "Germany", city := JsonVal.strv "Berlin" }]
      = 1 :=
  ⟨rfl, rfl⟩

theorem mkAddress_isSome_iff (j : JsonVal) :
    (∃ a, mkAddress j = some a) ↔
      ∃ af, j = JsonVal.obj af ∧ exactKeys af addressFields = true := by
  cases j with
  | obj fields =>
      rw [mkAddress]
      by_cases h : exactKeys fields addressFields = true
      · simp [h]
      · simp [h]
  | null => simp [mkAddress]
  | boolv b => simp [mkAddress]
  | numv m e => simp [mkAddress]
  | strv s => simp [mkAddress]
  | arr xs => simp [mkAddress]

theorem mkPerson_guard_iff (data : RawRecord)
    (haddr : "address" ∈ keysOf data) :
    ((personFields.all fun n => containsStr ("address" :: keysOf data) n) &&
        (("address" :: keysOf data).all fun k => containsStr personFields k))
        = true
      ↔ exactKeys data personFields = true := by
  simp only [Bool.and_eq_true, List.all_eq_true, containsStr_iff, exactKeys,
    List.mem_cons]
  constructor
  · rintro ⟨h1, h2⟩
    refine ⟨fun n hn => ?_, fun k hk => h2 k (Or.inr hk)⟩
    rcases h1 n hn with rfl | hmem
    · exact haddr
    · exact hmem
  · rintro ⟨h1, h2⟩
    refine ⟨fun n hn => Or.inr (h1 n hn), fun k hk => ?_⟩
    rcases hk with rfl | hk
    · decide
    · exact h2 k hk

theorem mkPerson_isSome_iff (data : RawRecord) (addr : Address)
    (haddr : "address" ∈ keysOf data) :
    (∃ p, mkPerson data addr = some p) ↔
      exactKeys data personFields = true := by
  rw [mkPerson]
  split
  · rename_i hcond
    have hex := (mkPerson_guard_iff data haddr).1 hcond
    simp [hex]
  · rename_i hcond
    have hex : exactKeys data personFields = false := by
      cases hq : exactKeys data personFields
      · rfl
      · exact absurd ((mkPerson_guard_iff data haddr).2 hq) hcond
    simp [hex]

/-- C1 (amended): `_validate_person` accepts a raw record and returns a Person
exactly when the record's top-level keys are precisely the ten required
`Person` fields, its birthday is a string parsing as `YYYY-MM-DD`, and its
nested address is a mapping whose keys are precisely the ten required
`Address` fields. In particular extra unknown fields — at top level or inside
the address mapping — break the exact-key condition and are grounds for
rejection, not ignored. -/
theorem validate_person_exact_fields (r : RawRecord) :
    (∃ p, _validate_person (JsonVal.obj r) = some p) ↔
      (exactKeys r personFields = true ∧
       (∃ bs, lookupKey r "birthday" = some (JsonVal.strv bs) ∧
          (parseYMD bs).isSome = true) ∧
       (∃ af, lookupKey r "address" = some (JsonVal.obj af) ∧
          exactKeys af addressFields = true)) := by
  constructor
  · rintro ⟨p, hp⟩
    rw [_validate_person] at hp
    split at hp
    · rename_i bs hbd
      split at hp
      · rename_i d hpd
        split at hp
        · rename_i aj haf
          split at hp
          · rename_i addr hma
            have haddrmem : "address" ∈ keysOf r := lookupKey_mem haf
            obtain ⟨af, rfl, hafk⟩ := (mkAddress_isSome_iff aj).1 ⟨addr, hma⟩
            exact ⟨(mkPerson_isSome_iff r addr haddrmem).1 ⟨p, hp⟩,
              ⟨bs, hbd, by rw [hpd]; rfl⟩, ⟨af, haf, hafk⟩⟩
          · exact absurd hp (by simp)
        · exact absurd hp (by simp)
      · exact absurd hp (by simp)
    · exact absurd hp (by simp)
    · exact absurd hp (by simp)
  · rintro ⟨hex, ⟨bs, hbs, hbp⟩, ⟨af, haf, hafk⟩⟩
    have haddrmem : "address" ∈ keysOf r := lookupKey_mem haf
    obtain ⟨d, hd⟩ := Option.isSome_iff_exists.1 hbp
    rw [_validate_person]
    simp only [hbs, hd, haf, mkAddress, hafk, if_true]
    exact (mkPerson_isSome_iff r _ haddrmem).2 hex

theorem validate_person_exact_fields_witness :
    (_validate_person (JsonVal.obj sampleRecord)).isSome = true := by
  obtain ⟨p, hp⟩ := (validate_person_exact_fields sampleRecord).mpr
    ⟨rfl, ⟨"1990-01-01", rfl, rfl⟩, ⟨sampleAddressJson, rfl, rfl⟩⟩
  rw [hp]
  rfl

/-- C1 counterexample: `sampleRecordExtra` has every required `Person` and
`Address` field present and well-typed and a birthday parsing as `YYYY-MM-DD`,
plus one extra unknown top-level field; `_validate_person` rejects it (the
dataclass constructor raises `TypeError` on the unexpected keyword), while the
same record without the extra field is accepted. -/
theorem validate_person_extra_field_rejected :
    _validate_person (JsonVal.obj sampleRecordExtra) = none ∧
    (_validate_person (JsonVal.obj sampleRecord)).isSome = true ∧
    lookupKey sampleRecordExtra "birthday"
      = some (JsonVal.strv "1990-01-01") ∧
    (parseYMD "1990-01-01").isSome = true ∧
    (personFields.all fun n => containsStr (keysOf sampleRecordExtra) n)
      = true :=
  ⟨rfl, rfl, rfl, rfl, rfl⟩
